import Mathlib

/-!
Verification of the `BlockRevealTextWrapper` component
(src/components/block-reveal-text-wrapper.tsx).

The component orchestrates a per-line block-reveal text animation:
on activation it segments each target element into line elements,
wraps each line in a synthetic wrapper together with a colored overlay
block, sets the initial visual state of all lines and blocks in one
batch, builds one GSAP timeline per line, and schedules the timelines
either immediately or behind a scroll trigger; on deactivation it
reverts the segmentation and unwraps any remaining wrappers.

The external capabilities (GSAP SplitText, timelines, ScrollTrigger,
and the useGSAP lifecycle hook) are consumed by the component as black
boxes; they are modelled here by the contracts the component relies on
(split returns the rendered lines in document order and its revert
restores the original children; a ScrollTrigger created with
`once: true` fires its callback at most once; useGSAP runs the cleanup
of the previous cycle before re-running the effect when a dependency
changes and discards the timelines and triggers created in its scope).
Times are rational numbers (seconds): 0.15 is 3/20, 0.75 is 3/4.
-/

/-- A DOM node: either a text node or an element carrying a class
string, an inline-style association list, and a list of children. -/
inductive DomNode where
  | text (s : String)
  | elem (cls : String) (style : List (String × String)) (children : List DomNode)

/-- Configuration props of `BlockRevealTextWrapper`, with the types the
component destructures: `animateOnScroll`, `delay`, `blockColor`,
`stagger`, `duration`. -/
structure Config where
  animateOnScroll : Bool
  delay : ℚ
  blockColor : String
  stagger : ℚ
  duration : ℚ
deriving DecidableEq

/-- The default prop values of the component:
`animateOnScroll = true, delay = 0, blockColor = "#000",
stagger = 0.15, duration = 0.75`. -/
def defaultConfig : Config :=
  { animateOnScroll := true
    delay := 0
    blockColor := "#000"
    stagger := 3/20
    duration := 3/4 }

/-- The two kinds of animation targets a timeline step addresses: the
overlay block or the line element of the (block, line) pair the
timeline was built for. -/
inductive AnimTarget where
  | block
  | line
deriving DecidableEq

/-- A property value in a tween or set step: numeric (scaleX, opacity)
or string-valued (transformOrigin). -/
inductive PropVal where
  | num (q : ℚ)
  | str (s : String)
deriving DecidableEq

/-- One step of a GSAP timeline as the component uses it: either a
tween (`tl.to`) with a duration and an ease, or an instantaneous set
(`tl.set`). -/
inductive TlStep where
  | tween (target : AnimTarget) (props : List (String × PropVal)) (duration : ℚ) (ease : String)
  | instantSet (target : AnimTarget) (props : List (String × PropVal))
deriving DecidableEq

/-- A reveal timeline: its construction-time start delay, its ordered
steps, whether it is currently paused, and the (block, line) DOM pair
it animates. A GSAP timeline is created unpaused and starts playing
unless `pause()` is called on it. -/
structure Timeline where
  startDelay : ℚ
  steps : List TlStep
  paused : Bool
  blockEl : DomNode
  lineEl : DomNode

/-- `createBlockRevealAnimation` from the source: builds the timeline
`gsap.timeline({ delay: delay + index + stagger })` with the four-step
program: tween the block to `scaleX: 1` over `duration` with ease
`"power4.inOut"`, set the line to `opacity: 1`, set the block's
`transformOrigin` to `"right center"`, tween the block to `scaleX: 0`
over `duration` with ease `"power4.inOut"`. -/
def createBlockRevealAnimation (cfg : Config) (block line : DomNode) (index : ℕ) : Timeline :=
  { startDelay := cfg.delay + index + cfg.stagger
    steps :=
      [ .tween .block [("scaleX", .num 1)] cfg.duration "power4.inOut"
      , .instantSet .line [("opacity", .num 1)]
      , .instantSet .block [("transformOrigin", .str "right center")]
      , .tween .block [("scaleX", .num 0)] cfg.duration "power4.inOut" ]
    paused := false
    blockEl := block
    lineEl := line }

/-- C1: every reveal timeline's start offset is `delay + index + stagger`
seconds, and in particular with `delay = 0` and `stagger = 0.15` the
offsets of lines 0, 1, 2 are 0.15 s, 1.15 s and 2.15 s — one-second
increments coming from the index, not multiples of `stagger`. -/
theorem timeline_start_offset (cfg : Config) (b l : DomNode) (i : ℕ)
    (h0 : cfg.delay = 0) (h1 : cfg.stagger = 3/20) :
    (createBlockRevealAnimation cfg b l i).startDelay = cfg.delay + (i : ℚ) + cfg.stagger
    ∧ (createBlockRevealAnimation cfg b l 0).startDelay = 3/20
    ∧ (createBlockRevealAnimation cfg b l 1).startDelay = 23/20
    ∧ (createBlockRevealAnimation cfg b l 2).startDelay = 43/20 := by
  refine ⟨rfl, ?_, ?_, ?_⟩ <;>
    simp [createBlockRevealAnimation, h0, h1] <;> norm_num

/-- Witness for `timeline_start_offset` at `delay = 0`, `stagger = 0.15`. -/
theorem timeline_start_offset_witness :
    (createBlockRevealAnimation { defaultConfig with delay := 0 } (.text "b") (.text "l") 1).startDelay
        = 0 + (1 : ℚ) + 3/20
    ∧ (createBlockRevealAnimation { defaultConfig with delay := 0 } (.text "b") (.text "l") 0).startDelay = 3/20
    ∧ (createBlockRevealAnimation { defaultConfig with delay := 0 } (.text "b") (.text "l") 1).startDelay = 23/20
    ∧ (createBlockRevealAnimation { defaultConfig with delay := 0 } (.text "b") (.text "l") 2).startDelay = 43/20 :=
  timeline_start_offset { defaultConfig with delay := 0 } (.text "b") (.text "l") 1 rfl rfl

/-- C4: the reveal timeline performs exactly the ordered four-step
sequence — grow the block horizontally from collapsed (its scale was
batch-initialised to 0) to full width over `duration` seconds, set the
line's opacity to 1 instantaneously, flip the block's transform origin
to its right edge instantaneously, and shrink the block back to scale
0 over `duration` seconds — with both tween phases using the same
strong in-out ease `"power4.inOut"`. -/
theorem timeline_step_sequence (cfg : Config) (b l : DomNode) (i : ℕ) :
    (createBlockRevealAnimation cfg b l i).steps =
      [ .tween .block [("scaleX", .num 1)] cfg.duration "power4.inOut"
      , .instantSet .line [("opacity", .num 1)]
      , .instantSet .block [("transformOrigin", .str "right center")]
      , .tween .block [("scaleX", .num 0)] cfg.duration "power4.inOut" ]
    ∧ ∀ tgt₁ tgt₂ p₁ p₂ d₁ d₂ e₁ e₂,
        (createBlockRevealAnimation cfg b l i).steps.head? = some (.tween tgt₁ p₁ d₁ e₁) →
        (createBlockRevealAnimation cfg b l i).steps.getLast? = some (.tween tgt₂ p₂ d₂ e₂) →
        e₁ = e₂ ∧ d₁ = cfg.duration ∧ d₂ = cfg.duration := by
  refine ⟨rfl, ?_⟩
  intro tgt₁ tgt₂ p₁ p₂ d₁ d₂ e₁ e₂ h₁ h₂
  simp [createBlockRevealAnimation] at h₁ h₂
  obtain ⟨-, -, hd₁, he₁⟩ := h₁
  obtain ⟨-, -, hd₂, he₂⟩ := h₂
  subst hd₁; subst he₁; subst hd₂; subst he₂
  exact ⟨rfl, rfl, rfl⟩

/-- Witness for `timeline_step_sequence` at the default configuration. -/
theorem timeline_step_sequence_witness :
    (createBlockRevealAnimation defaultConfig (.text "b") (.text "l") 0).steps =
      [ .tween .block [("scaleX", .num 1)] defaultConfig.duration "power4.inOut"
      , .instantSet .line [("opacity", .num 1)]
      , .instantSet .block [("transformOrigin", .str "right center")]
      , .tween .block [("scaleX", .num 0)] defaultConfig.duration "power4.inOut" ]
    ∧ ∀ tgt₁ tgt₂ p₁ p₂ d₁ d₂ e₁ e₂,
        (createBlockRevealAnimation defaultConfig (.text "b") (.text "l") 0).steps.head?
            = some (.tween tgt₁ p₁ d₁ e₁) →
        (createBlockRevealAnimation defaultConfig (.text "b") (.text "l") 0).steps.getLast?
            = some (.tween tgt₂ p₂ d₂ e₂) →
        e₁ = e₂ ∧ d₁ = defaultConfig.duration ∧ d₂ = defaultConfig.duration :=
  timeline_step_sequence defaultConfig (.text "b") (.text "l") 0

/-- A target element the component animates: its current DOM children
and the line texts the rendered layout produces for it. The line
texts are an input of the model because line breaking depends on
layout, which the external segmentation capability observes. -/
structure TargetElem where
  children : List DomNode
  renderedLines : List String

/-- The content root as the activation pipeline sees it: either it
carries the `data-block-reveal-text-wrapper` marker attribute (then its
direct children are independent targets) or it does not (then the root
itself is the sole target). -/
inductive RootElem where
  | marked (childTargets : List TargetElem)
  | unmarked (self : TargetElem)

/-- Whether the root carries the `data-block-reveal-text-wrapper`
marker attribute (`containerRef.current.hasAttribute(...)`). -/
def RootElem.hasMarkerAttr : RootElem → Bool
  | .marked _ => true
  | .unmarked _ => false

/-- The `elements` list of the source: the root's direct children when
the marker attribute is present, otherwise the singleton of the root
itself. -/
def elementsOf : RootElem → List TargetElem
  | .marked cs => cs
  | .unmarked t => [t]

/-- The JSX the component returns: a div carrying
`data-block-reveal-text-wrapper="true"` whose children are the
caller's children. -/
def BlockRevealTextWrapper (children : List TargetElem) : RootElem :=
  .marked children

/-- Models the external SplitText capability by the contract the spec
states for segmentation: splitting keeps the original children for
`revert`, and produces one line element per rendered line, in document
order, classed `block-line1`, `block-line2`, ... (the `block-line++`
incrementing lines class). -/
structure SplitInstance where
  original : List DomNode
  lines : List DomNode

/-- The line element SplitText produces for the (0-based) i-th rendered
line of one target: an element with the incrementing class holding the
line's text. -/
def mkLineElem (i : ℕ) (s : String) : DomNode :=
  .elem ("block-line" ++ toString (i + 1)) [] [.text s]

/-- The line elements of one split, in document order. -/
def mkLineElemsFrom : ℕ → List String → List DomNode
  | _, [] => []
  | i, s :: rest => mkLineElem i s :: mkLineElemsFrom (i + 1) rest

/-- `SplitText.create(element, { type: "lines", linesClass: "block-line++" })`:
records the original children and replaces the target's content by the
line elements. -/
def splitCreate (t : TargetElem) : SplitInstance :=
  { original := t.children, lines := mkLineElemsFrom 0 t.renderedLines }

/-- The overlay block node the loop creates per line:
`div.block-revealer` with `backgroundColor` set to `blockColor`. -/
def mkBlock (color : String) : DomNode :=
  .elem "block-revealer" [("backgroundColor", color)] []

/-- The wrapper node after the loop body ran for one line: a
`div.block-line-wrapper` inserted at the line's position, holding the
line (moved inside) followed by the appended overlay block. -/
def mkWrapper (color : String) (line : DomNode) : DomNode :=
  .elem "block-line-wrapper" [] [line, mkBlock color]

/-- The children of a target after every line was wrapped: one wrapper
per line element, in place of that line. -/
def wrappedChildrenFrom (color : String) : ℕ → List String → List DomNode
  | _, [] => []
  | i, s :: rest => mkWrapper color (mkLineElem i s) :: wrappedChildrenFrom color (i + 1) rest

/-- One target's state inside an activation cycle: the children saved
by its split instance (for revert), the rendered line texts, and its
current DOM children. -/
structure TargetCycle where
  original : List DomNode
  lineTexts : List String
  children : List DomNode

/-- Splitting then wrapping one target element. -/
def activateTarget (cfg : Config) (t : TargetElem) : TargetCycle :=
  { original := (splitCreate t).original
    lineTexts := t.renderedLines
    children := wrappedChildrenFrom cfg.blockColor 0 t.renderedLines }

/-- The line elements one target contributes to `lines.current`. -/
def targetLineElems (t : TargetElem) : List DomNode :=
  (splitCreate t).lines

/-- A ScrollTrigger registration as the component creates it:
`trigger: containerRef.current, start: "top 90%", once: true`, whose
`onEnter` plays the timeline of line `lineIdx`. `fired` is false at
registration. -/
structure Trigger where
  lineIdx : ℕ
  watchesRoot : Bool
  start : String
  once : Bool
  fired : Bool
deriving DecidableEq

/-- The trigger registered for line `i`. -/
def mkTrigger (i : ℕ) : Trigger :=
  { lineIdx := i, watchesRoot := true, start := "top 90%", once := true, fired := false }

/-- `tl.pause()`. -/
def pauseTl (tl : Timeline) : Timeline :=
  { tl with paused := true }

/-- The timelines the scheduling loop builds over the (block, line)
pairs with their running index: in scroll mode each timeline is
created then immediately paused; otherwise it is left running. -/
def scheduledTimelinesFrom (cfg : Config) : ℕ → List (DomNode × DomNode) → List Timeline
  | _, [] => []
  | i, (b, l) :: rest =>
      (if cfg.animateOnScroll then
        pauseTl (createBlockRevealAnimation cfg b l i)
      else
        createBlockRevealAnimation cfg b l i)
        :: scheduledTimelinesFrom cfg (i + 1) rest

/-- The triggers the scheduling loop registers: one per line in scroll
mode, none otherwise. -/
def scheduledTriggers (cfg : Config) (n : ℕ) : List Trigger :=
  if cfg.animateOnScroll then (List.range n).map mkTrigger else []

/-- The state of one activation cycle: the per-target cycles (split
instance plus mutated DOM), the `lines.current` and `blocks.current`
arrays, and the timelines and triggers built by the scheduling loop. -/
structure ActivationState where
  targets : List TargetCycle
  lines : List DomNode
  blocks : List DomNode
  timelines : List Timeline
  triggers : List Trigger

/-- The activation pipeline on an attached root: reset the arrays,
resolve the element list from the marker attribute, split each target
and wrap each of its lines, collect the lines and blocks, then build
and schedule one timeline per line. -/
def activateOn (cfg : Config) (root : RootElem) : ActivationState :=
  let ts := elementsOf root
  let ls := ts.flatMap targetLineElems
  let bs := ls.map (fun _ => mkBlock cfg.blockColor)
  { targets := ts.map (activateTarget cfg)
    lines := ls
    blocks := bs
    timelines := scheduledTimelinesFrom cfg 0 (bs.zip ls)
    triggers := scheduledTriggers cfg ls.length }

/-- The guarded entry of the useGSAP callback: if
`containerRef.current` is null the callback returns before touching
anything, leaving the previous state untouched; otherwise it runs the
activation pipeline. -/
def runActivation (cfg : Config) (prev : ActivationState) (root : Option RootElem) : ActivationState :=
  match root with
  | none => prev
  | some r => activateOn cfg r

/-- The total number of lines segmentation discovers across all
targets of the root. -/
def totalLines (root : RootElem) : ℕ :=
  ((elementsOf root).flatMap TargetElem.renderedLines).length

/-- Whether a node is one of the component's line wrappers
(`querySelectorAll(".block-line-wrapper")` matches it). -/
def isWrapperNode : DomNode → Bool
  | .elem cls _ _ => cls = "block-line-wrapper"
  | .text _ => false

mutual

/-- The effect of the cleanup's wrapper pass on one node of the root's
subtree. A wrapper with a first child is replaced, at its position, by
that first child (the child was moved out just before the wrapper and
the wrapper — together with its remaining children — was removed); the
moved child is itself still subject to the pass, because the wrapper
list was queried over the whole subtree before any removal. A wrapper
without a first child fails the `wrapper.firstChild` guard and is left
in place. Any other element keeps its place and has its children
processed. -/
def unwrapStep : DomNode → List DomNode
  | .text s => [.text s]
  | .elem cls st kids =>
      if cls = "block-line-wrapper" then
        match kids with
        | [] => [.elem cls st []]
        | c :: _ => unwrapStep c
      else
        [.elem cls st (unwrapKids kids)]

/-- The cleanup's wrapper pass over a list of sibling nodes. -/
def unwrapKids : List DomNode → List DomNode
  | [] => []
  | n :: rest => unwrapStep n ++ unwrapKids rest

end

/-- `split.revert()` on one target of the cycle: the external
segmentation capability restores the children that were saved when the
split was created. -/
def revertTarget (tc : TargetCycle) : TargetCycle :=
  { tc with children := tc.original }

/-- The cleanup function returned from the useGSAP callback: revert
every split instance, then run the wrapper pass over the root's
subtree; the useGSAP context discards the timelines and ScrollTriggers
that were created in its scope, stopping any in-flight animation. -/
def deactivate (st : ActivationState) : ActivationState :=
  let reverted := st.targets.map revertTarget
  { st with
    targets := reverted.map (fun tc => { tc with children := unwrapKids tc.children })
    timelines := []
    triggers := [] }

/-- A dependency-change re-activation, per the useGSAP/React contract:
the cleanup of the previous cycle runs first, then the callback runs
again with the new configuration against the (possibly re-rendered)
root. -/
def reconfigure (st : ActivationState) (cfg : Config) (root : Option RootElem) : ActivationState :=
  runActivation cfg (deactivate st) root

/-- `tl.play()` on the timeline at position `i` of the list. -/
def playAt : List Timeline → ℕ → List Timeline
  | [], _ => []
  | tl :: rest, 0 => { tl with paused := false } :: rest
  | tl :: rest, n + 1 => tl :: playAt rest n

/-- The root's top edge crossing the `"top 90%"` viewport mark for the
`k`-th registered trigger, per the ScrollTrigger contract: a trigger
registered with `once: true` that has already fired does nothing;
otherwise its `onEnter` runs — playing the timeline of its line — and
the trigger is marked fired. -/
def fireTrigger (st : ActivationState) (k : ℕ) : ActivationState :=
  match st.triggers.get? k with
  | none => st
  | some tr =>
      if tr.once && tr.fired then st
      else
        { st with
          triggers := st.triggers.set k { tr with fired := true }
          timelines := playAt st.timelines tr.lineIdx }

/-- Observable events of the activation pipeline, in the order the
callback performs them. -/
inductive Ev where
  | splitCreate (numLines : ℕ)
  | wrapLine (localIdx : ℕ)
  | setLinesInitial (count : ℕ) (opacity : ℚ)
  | setBlocksInitial (count : ℕ) (scaleX : ℚ) (origin : String)
  | buildTimeline (idx : ℕ)
  | pauseTimeline (idx : ℕ)
  | registerTrigger (idx : ℕ)
deriving DecidableEq

/-- The events of segmenting and wrapping one target: its
`SplitText.create` call followed by one wrap per resulting line. -/
def targetSegmentEvents (t : TargetElem) : List Ev :=
  .splitCreate t.renderedLines.length
    :: (List.range t.renderedLines.length).map Ev.wrapLine

/-- The events of the scheduling loop over the `n` collected lines: in
scroll mode each line's timeline is built, paused, and given a
trigger; in immediate mode each line's timeline is just built (and
runs). -/
def scheduleEvents (cfg : Config) (n : ℕ) : List Ev :=
  if cfg.animateOnScroll then
    (List.range n).flatMap (fun i => [.buildTimeline i, .pauseTimeline i, .registerTrigger i])
  else
    (List.range n).map Ev.buildTimeline

/-- The full event trace of the activation pipeline, in source order:
per-target segmentation and wrapping, then the two batch `gsap.set`
calls — `{ opacity: 0 }` on all collected lines and
`{ scaleX: 0, transformOrigin: "left center" }` on all collected
blocks — then the scheduling loop. -/
def activationTrace (cfg : Config) (root : RootElem) : List Ev :=
  let ts := elementsOf root
  let n := totalLines root
  ts.flatMap targetSegmentEvents
    ++ [.setLinesInitial n 0, .setBlocksInitial n 0 "left center"]
    ++ scheduleEvents cfg n

mutual

/-- Whether no element anywhere in a node's subtree carries the
synthetic `block-line-wrapper` class — the shape of arbitrary caller
content (text or element-nested rich markup), which contains no
synthetic nodes of this component. -/
def cleanNode : DomNode → Bool
  | .text _ => true
  | .elem cls _ kids => (cls != "block-line-wrapper") && cleanKids kids

/-- `cleanNode` over a list of sibling nodes. -/
def cleanKids : List DomNode → Bool
  | [] => true
  | n :: rest => cleanNode n && cleanKids rest

end

/-- Whether a node is an overlay block: a childless
`div.block-revealer`. -/
def isOverlayBlock : DomNode → Bool
  | .elem cls _ [] => cls = "block-revealer"
  | _ => false

/-- Whether a node is a line element as segmentation produces it: an
element holding a single text node. -/
def isLineElem : DomNode → Bool
  | .elem _ _ [.text _] => true
  | _ => false

/-- A well-formed activated wrapper: a `div.block-line-wrapper` with
exactly two children, one line element followed by one overlay
block. -/
def wellFormedWrapper : DomNode → Bool
  | .elem cls _ [line, block] =>
      cls = "block-line-wrapper" && isLineElem line && isOverlayBlock block
  | _ => false

/-- The number of wrapper nodes among the children of all targets of
an activation state. -/
def countWrappers (st : ActivationState) : ℕ :=
  ((st.targets.map TargetCycle.children).flatten).countP (fun n => isWrapperNode n)

theorem mkLineElemsFrom_length (i : ℕ) (ts : List String) :
    (mkLineElemsFrom i ts).length = ts.length := by
  induction ts generalizing i with
  | nil => rfl
  | cons s rest ih => simp [mkLineElemsFrom, ih]

theorem targetLineElems_length (t : TargetElem) :
    (targetLineElems t).length = t.renderedLines.length := by
  simp [targetLineElems, splitCreate, mkLineElemsFrom_length]

theorem flatMap_targetLineElems_length (ts : List TargetElem) :
    (ts.flatMap targetLineElems).length
      = (ts.flatMap TargetElem.renderedLines).length := by
  induction ts with
  | nil => rfl
  | cons t rest ih => simp [List.flatMap_cons, targetLineElems_length, ih]

theorem activateOn_lines_length (cfg : Config) (root : RootElem) :
    (activateOn cfg root).lines.length = totalLines root := by
  have h : (activateOn cfg root).lines = (elementsOf root).flatMap targetLineElems := rfl
  rw [h, flatMap_targetLineElems_length]
  rfl

theorem scheduledTimelinesFrom_length (cfg : Config) (i : ℕ) (ps : List (DomNode × DomNode)) :
    (scheduledTimelinesFrom cfg i ps).length = ps.length := by
  induction ps generalizing i with
  | nil => rfl
  | cons p rest ih => cases p; simp [scheduledTimelinesFrom, ih]

theorem activateOn_timelines_length (cfg : Config) (root : RootElem) :
    (activateOn cfg root).timelines.length = totalLines root := by
  have h := activateOn_lines_length cfg root
  simp [activateOn] at h ⊢
  simp [scheduledTimelinesFrom_length, h]

theorem activateOn_triggers_length (cfg : Config) (root : RootElem) :
    (activateOn cfg root).triggers.length
      = (if cfg.animateOnScroll then totalLines root else 0) := by
  have h := activateOn_lines_length cfg root
  simp [activateOn] at h ⊢
  simp [scheduledTriggers]
  by_cases hs : cfg.animateOnScroll <;> simp [hs, h]

theorem wrappedChildrenFrom_length (color : String) (i : ℕ) (ts : List String) :
    (wrappedChildrenFrom color i ts).length = ts.length := by
  induction ts generalizing i with
  | nil => rfl
  | cons s rest ih => simp [wrappedChildrenFrom, ih]

theorem wrappedChildrenFrom_wellFormed (color : String) (i : ℕ) (ts : List String) :
    ∀ c ∈ wrappedChildrenFrom color i ts, wellFormedWrapper c = true := by
  induction ts generalizing i with
  | nil => intro c hc; simp [wrappedChildrenFrom] at hc
  | cons s rest ih =>
      intro c hc
      simp only [wrappedChildrenFrom, List.mem_cons] at hc
      rcases hc with hc | hc
      · subst hc
        simp [wellFormedWrapper, mkWrapper, mkLineElem, mkBlock, isLineElem, isOverlayBlock]
      · exact ih (i + 1) c hc

theorem wrappedChildrenFrom_countP (color : String) (i : ℕ) (ts : List String) :
    (wrappedChildrenFrom color i ts).countP (fun n => isWrapperNode n) = ts.length := by
  induction ts generalizing i with
  | nil => rfl
  | cons s rest ih =>
      rw [wrappedChildrenFrom, List.countP_cons, ih]
      simp [mkWrapper, isWrapperNode]

theorem countWrappers_activateOn (cfg : Config) (root : RootElem) :
    countWrappers (activateOn cfg root) = totalLines root := by
  simp only [countWrappers, activateOn, totalLines]
  induction elementsOf root with
  | nil => rfl
  | cons t rest ih =>
      simp only [List.map_cons, List.flatten_cons, List.countP_append,
        List.flatMap_cons, List.length_append, activateTarget]
      rw [wrappedChildrenFrom_countP]
      omega

theorem unwrapKids_append (a b : List DomNode) :
    unwrapKids (a ++ b) = unwrapKids a ++ unwrapKids b := by
  induction a with
  | nil => rfl
  | cons n rest ih => simp [unwrapKids, ih]

mutual

theorem unwrapStep_clean : ∀ n : DomNode, cleanNode n = true → unwrapStep n = [n]
  | .text _, _ => rfl
  | .elem cls st kids, h => by
      simp only [cleanNode, Bool.and_eq_true, bne_iff_ne, ne_eq] at h
      obtain ⟨hcls, hkids⟩ := h
      unfold unwrapStep
      rw [if_neg hcls, unwrapKids_clean kids hkids]

theorem unwrapKids_clean : ∀ ns : List DomNode, cleanKids ns = true → unwrapKids ns = ns
  | [], _ => rfl
  | n :: rest, h => by
      simp only [cleanKids, Bool.and_eq_true] at h
      unfold unwrapKids
      rw [unwrapStep_clean n h.1, unwrapKids_clean rest h.2]
      rfl

end

theorem scheduledTimelinesFrom_paused (cfg : Config) (i : ℕ) (ps : List (DomNode × DomNode)) :
    ∀ tl ∈ scheduledTimelinesFrom cfg i ps, tl.paused = cfg.animateOnScroll := by
  induction ps generalizing i with
  | nil => intro tl h; simp [scheduledTimelinesFrom] at h
  | cons p rest ih =>
      intro tl h
      obtain ⟨b, l⟩ := p
      simp only [scheduledTimelinesFrom, List.mem_cons] at h
      rcases h with h | h
      · subst h
        by_cases hs : cfg.animateOnScroll <;>
          simp [hs, pauseTl, createBlockRevealAnimation]
      · exact ih (i + 1) tl h

theorem scheduledTriggers_get (cfg : Config) (n k : ℕ) (tr : Trigger)
    (h : (scheduledTriggers cfg n).get? k = some tr) : tr = mkTrigger k := by
  simp only [scheduledTriggers] at h
  by_cases hs : cfg.animateOnScroll
  · rw [if_pos hs] at h
    rw [List.get?_eq_getElem?, List.getElem?_map] at h
    by_cases hk : k < n
    · rw [List.getElem?_range hk] at h
      simp only [Option.map_some', Option.some.injEq] at h
      exact h.symm
    · have hlen : (List.range n).length ≤ k := by
        simpa using Nat.le_of_not_lt hk
      rw [List.getElem?_eq_none hlen] at h
      simp at h
  · rw [if_neg hs] at h
    simp at h

theorem get?_some_lt {α : Type} (l : List α) (k : ℕ) (a : α)
    (h : l.get? k = some a) : k < l.length := by
  induction l generalizing k with
  | nil => simp [List.get?] at h
  | cons x rest ih =>
      cases k with
      | zero => simp
      | succ n =>
          simp only [List.get?] at h
          have := ih n h
          simp [Nat.succ_lt_succ this]

theorem get?_set_self {α : Type} (l : List α) (k : ℕ) (a : α)
    (h : k < l.length) : (l.set k a).get? k = some a := by
  induction l generalizing k with
  | nil => simp at h
  | cons x rest ih =>
      cases k with
      | zero => rfl
      | succ n =>
          simp only [List.set_cons_succ, List.get?]
          exact ih n (by simpa using h)

theorem set_set_self {α : Type} (l : List α) (k : ℕ) (a b : α) :
    (l.set k a).set k b = l.set k b := by
  induction l generalizing k with
  | nil => rfl
  | cons x rest ih =>
      cases k with
      | zero => rfl
      | succ n => simp only [List.set_cons_succ, ih]

theorem playAt_length (tls : List Timeline) (i : ℕ) :
    (playAt tls i).length = tls.length := by
  induction tls generalizing i with
  | nil => rfl
  | cons tl rest ih =>
      cases i with
      | zero => rfl
      | succ n => simp [playAt, ih]

theorem playAt_playAt (tls : List Timeline) (i : ℕ) :
    playAt (playAt tls i) i = playAt tls i := by
  induction tls generalizing i with
  | nil => rfl
  | cons tl rest ih =>
      cases i with
      | zero => rfl
      | succ n => simp [playAt, ih]

theorem fireTrigger_idem (st : ActivationState) (k : ℕ) :
    fireTrigger (fireTrigger st k) k = fireTrigger st k := by
  rcases hg : st.triggers.get? k with _ | tr
  all_goals rw [List.get?_eq_getElem?] at hg
  · have h1 : fireTrigger st k = st := by
      simp [fireTrigger, hg]
    rw [h1]
    exact h1
  · have hk : k < st.triggers.length := by
      rw [← List.get?_eq_getElem?] at hg
      exact get?_some_lt _ _ _ hg
    by_cases hq : tr.once && tr.fired
    · have h1 : fireTrigger st k = st := by
        simp only [Bool.and_eq_true] at hq
        simp [fireTrigger, hg, hq]
      rw [h1]
      exact h1
    · have h1 : fireTrigger st k =
        { st with
          triggers := st.triggers.set k { tr with fired := true }
          timelines := playAt st.timelines tr.lineIdx } := by
        simp only [Bool.and_eq_true, not_and] at hq
        simp [fireTrigger, hg]
        intro h1 h2
        exact absurd h2 (hq h1)
      rw [h1]
      have hg2 : (st.triggers.set k { tr with fired := true }).get? k
          = some { tr with fired := true } :=
        get?_set_self _ _ _ hk
      rw [List.get?_eq_getElem?] at hg2
      by_cases ho : tr.once
      · rw [ho] at hg2
        simp [fireTrigger, hg2, ho]
      · have ho2 : tr.once = false := by simpa using ho
        rw [ho2] at hg2
        simp [fireTrigger, hg2, ho2, set_set_self, playAt_playAt]

theorem fireTrigger_plays (st : ActivationState) (k : ℕ) (tr : Trigger)
    (hg : st.triggers.get? k = some tr) (hf : tr.fired = false) :
    (fireTrigger st k).timelines = playAt st.timelines tr.lineIdx := by
  rw [List.get?_eq_getElem?] at hg
  simp [fireTrigger, hg, hf]

/-- A sample target for concrete evaluation: one text node whose
layout renders as two lines. -/
def sampleTarget : TargetElem :=
  { children := [.text "ab cd"], renderedLines := ["ab", "cd"] }

/-- A sample content root: the component's rendered div around one
child target. -/
def sampleRoot : RootElem :=
  BlockRevealTextWrapper [sampleTarget]

/-- A sample target with element-nested rich content: a styled
paragraph holding text and a nested inline element. -/
def richTarget : TargetElem :=
  { children :=
      [ .elem "p" [("color", "red")]
          [.text "hello ", .elem "em" [] [.text "world"]] ]
    renderedLines := ["hello", "world"] }

/-- A sample content root around the rich-content target. -/
def richRoot : RootElem :=
  BlockRevealTextWrapper [richTarget]

/-- C3: scheduling is selected by `animateOnScroll`: with it false no
trigger exists and every timeline is running (never paused) from
construction; with it true there is one trigger per line, each
watching the content root for its top edge crossing 90% of the
viewport, registered once-only and unfired, the `k`-th trigger gating
line `k`, and every timeline is paused at construction. Firing a
trigger a second time changes nothing, and firing a registered trigger
plays exactly its line's timeline. -/
theorem scheduling_mode_exclusive (cfg : Config) (root : RootElem) :
    (activateOn cfg root).triggers.length
        = (if cfg.animateOnScroll then totalLines root else 0)
    ∧ (∀ tl ∈ (activateOn cfg root).timelines, tl.paused = cfg.animateOnScroll)
    ∧ (∀ k tr, (activateOn cfg root).triggers.get? k = some tr →
        tr.watchesRoot = true ∧ tr.start = "top 90%" ∧ tr.once = true
          ∧ tr.fired = false ∧ tr.lineIdx = k)
    ∧ (∀ k, fireTrigger (fireTrigger (activateOn cfg root) k) k
        = fireTrigger (activateOn cfg root) k)
    ∧ (∀ k tr, (activateOn cfg root).triggers.get? k = some tr →
        (fireTrigger (activateOn cfg root) k).timelines
          = playAt (activateOn cfg root).timelines tr.lineIdx) := by
  refine ⟨activateOn_triggers_length cfg root, ?_, ?_, ?_, ?_⟩
  · intro tl htl
    exact scheduledTimelinesFrom_paused cfg 0 _ tl htl
  · intro k tr hg
    have h := scheduledTriggers_get cfg _ k tr hg
    subst h
    exact ⟨rfl, rfl, rfl, rfl, rfl⟩
  · intro k
    exact fireTrigger_idem (activateOn cfg root) k
  · intro k tr hg
    have h := scheduledTriggers_get cfg _ k tr hg
    exact fireTrigger_plays _ k tr hg (by rw [h]; rfl)

/-- Witness for `scheduling_mode_exclusive` at the default (scroll)
configuration on the sample root. -/
theorem scheduling_mode_exclusive_witness :
    (activateOn defaultConfig sampleRoot).triggers.length
        = (if defaultConfig.animateOnScroll then totalLines sampleRoot else 0)
    ∧ (∀ tl ∈ (activateOn defaultConfig sampleRoot).timelines,
        tl.paused = defaultConfig.animateOnScroll)
    ∧ (∀ k tr, (activateOn defaultConfig sampleRoot).triggers.get? k = some tr →
        tr.watchesRoot = true ∧ tr.start = "top 90%" ∧ tr.once = true
          ∧ tr.fired = false ∧ tr.lineIdx = k)
    ∧ (∀ k, fireTrigger (fireTrigger (activateOn defaultConfig sampleRoot) k) k
        = fireTrigger (activateOn defaultConfig sampleRoot) k)
    ∧ (∀ k tr, (activateOn defaultConfig sampleRoot).triggers.get? k = some tr →
        (fireTrigger (activateOn defaultConfig sampleRoot) k).timelines
          = playAt (activateOn defaultConfig sampleRoot).timelines tr.lineIdx) :=
  scheduling_mode_exclusive defaultConfig sampleRoot

theorem targetSegmentEvents_no_build (ts : List TargetElem) (i : ℕ) :
    Ev.buildTimeline i ∉ ts.flatMap targetSegmentEvents := by
  intro hmem
  rw [List.mem_flatMap] at hmem
  obtain ⟨t, ht, hin⟩ := hmem
  simp [targetSegmentEvents] at hin

theorem activationTrace_shape (cfg : Config) (root : RootElem) :
    activationTrace cfg root
      = (elementsOf root).flatMap targetSegmentEvents
          ++ (Ev.setLinesInitial (totalLines root) 0
              :: Ev.setBlocksInitial (totalLines root) 0 "left center"
              :: scheduleEvents cfg (totalLines root)) := by
  simp only [activationTrace]
  rw [List.append_assoc]
  rfl

/-- C5: in the activation trace, the batch initial-state events — the
single `gsap.set` putting opacity 0 on ALL collected lines and the
single `gsap.set` collapsing ALL collected blocks to `scaleX: 0` with
transform origin `"left center"` — occur consecutively and strictly
before every timeline-construction event. -/
theorem batch_initial_state_before_timelines (cfg : Config) (root : RootElem) :
    ∃ p, (activationTrace cfg root).get? p
          = some (.setLinesInitial (totalLines root) 0)
      ∧ (activationTrace cfg root).get? (p + 1)
          = some (.setBlocksInitial (totalLines root) 0 "left center")
      ∧ ∀ q i, (activationTrace cfg root).get? q = some (.buildTimeline i) → p + 1 < q := by
  have e := activationTrace_shape cfg root
  refine ⟨((elementsOf root).flatMap targetSegmentEvents).length, ?_, ?_, ?_⟩
  · rw [e, List.get?_append_right (Nat.le_refl _)]
    simp
  · rw [e, List.get?_append_right (Nat.le_succ_of_le (Nat.le_refl _))]
    have h1 : ((elementsOf root).flatMap targetSegmentEvents).length + 1
        - ((elementsOf root).flatMap targetSegmentEvents).length = 1 := by omega
    rw [h1]
    simp
  · intro q i hq
    rcases Nat.lt_or_ge q ((elementsOf root).flatMap targetSegmentEvents).length with hlt | hge
    · exfalso
      rw [e, List.get?_append hlt] at hq
      exact targetSegmentEvents_no_build (elementsOf root) i (List.get?_mem hq)
    · rw [e, List.get?_append_right hge] at hq
      rcases hd : q - ((elementsOf root).flatMap targetSegmentEvents).length with _ | _ | d
      · rw [hd] at hq
        simp at hq
      · rw [hd] at hq
        simp at hq
      · omega

/-- Witness for `batch_initial_state_before_timelines` on the sample
root at the default configuration. -/
theorem batch_initial_state_before_timelines_witness :
    ∃ p, (activationTrace defaultConfig sampleRoot).get? p
          = some (.setLinesInitial (totalLines sampleRoot) 0)
      ∧ (activationTrace defaultConfig sampleRoot).get? (p + 1)
          = some (.setBlocksInitial (totalLines sampleRoot) 0 "left center")
      ∧ ∀ q i, (activationTrace defaultConfig sampleRoot).get? q
            = some (.buildTimeline i) → p + 1 < q :=
  batch_initial_state_before_timelines defaultConfig sampleRoot

/-- C2: structural round-trip — for any content root (any number
N ≥ 0 of rendered lines, arbitrary element-nested rich content) whose
subtree carries none of this component's synthetic wrapper class,
activation followed immediately by deactivation restores every
target's subtree to exactly its pre-activation children: same text
content, same element nesting, no residual wrapper or overlay
nodes. -/
theorem activation_roundtrip (cfg : Config) (root : RootElem)
    (h : ∀ t ∈ elementsOf root, cleanKids t.children = true) :
    (deactivate (activateOn cfg root)).targets.map TargetCycle.children
      = (elementsOf root).map TargetElem.children := by
  have h1 : (deactivate (activateOn cfg root)).targets.map TargetCycle.children
      = (elementsOf root).map (fun t => unwrapKids t.children) := by
    simp only [deactivate, activateOn, List.map_map]
    rfl
  rw [h1]
  apply List.map_congr_left
  intro t ht
  exact unwrapKids_clean t.children (h t ht)

/-- Witness for `activation_roundtrip`: the rich-content root, whose
one target holds a paragraph with a nested inline element, rendered
as two lines. -/
theorem activation_roundtrip_witness :
    (deactivate (activateOn defaultConfig richRoot)).targets.map TargetCycle.children
      = (elementsOf richRoot).map TargetElem.children :=
  activation_roundtrip defaultConfig richRoot (by
    intro t ht
    simp only [richRoot, BlockRevealTextWrapper, elementsOf, List.mem_singleton] at ht
    subst ht
    rfl)

/-- C6: cardinality — after activation the collected lines, blocks and
timelines all number exactly the lines segmentation discovered across
the targets, the wrapper nodes under the targets also number exactly
that many, and every target child is a well-formed wrapper holding
exactly one line element and one overlay block; the root is arbitrary,
so this covers both the marked multi-child-host mode and the unmarked
single-target mode. -/
theorem activation_cardinality (cfg : Config) (root : RootElem) :
    (activateOn cfg root).lines.length = totalLines root
    ∧ (activateOn cfg root).blocks.length = totalLines root
    ∧ (activateOn cfg root).timelines.length = totalLines root
    ∧ countWrappers (activateOn cfg root) = totalLines root
    ∧ ∀ tc ∈ (activateOn cfg root).targets,
        tc.children.length = tc.lineTexts.length
        ∧ ∀ c ∈ tc.children, wellFormedWrapper c = true := by
  refine ⟨activateOn_lines_length cfg root, ?_, activateOn_timelines_length cfg root,
    countWrappers_activateOn cfg root, ?_⟩
  · have h : (activateOn cfg root).blocks
        = (activateOn cfg root).lines.map (fun _ => mkBlock cfg.blockColor) := rfl
    rw [h, List.length_map, activateOn_lines_length]
  · intro tc htc
    have h : (activateOn cfg root).targets = (elementsOf root).map (activateTarget cfg) := rfl
    rw [h] at htc
    obtain ⟨t, ht, rfl⟩ := List.mem_map.mp htc
    refine ⟨?_, ?_⟩
    · simp [activateTarget, wrappedChildrenFrom_length]
    · intro c hc
      exact wrappedChildrenFrom_wellFormed cfg.blockColor 0 t.renderedLines c hc

/-- Witness for `activation_cardinality` on the sample root. -/
theorem activation_cardinality_witness :
    (activateOn defaultConfig sampleRoot).lines.length = totalLines sampleRoot
    ∧ (activateOn defaultConfig sampleRoot).blocks.length = totalLines sampleRoot
    ∧ (activateOn defaultConfig sampleRoot).timelines.length = totalLines sampleRoot
    ∧ countWrappers (activateOn defaultConfig sampleRoot) = totalLines sampleRoot
    ∧ ∀ tc ∈ (activateOn defaultConfig sampleRoot).targets,
        tc.children.length = tc.lineTexts.length
        ∧ ∀ c ∈ tc.children, wellFormedWrapper c = true :=
  activation_cardinality defaultConfig sampleRoot

theorem flatMap_targetLineElems_nil (ts : List TargetElem)
    (h : ∀ t ∈ ts, t.renderedLines = []) :
    ts.flatMap targetLineElems = [] := by
  induction ts with
  | nil => rfl
  | cons t rest ih =>
      have h0 : targetLineElems t = [] := by
        have ht := h t (List.mem_cons_self t rest)
        simp [targetLineElems, splitCreate, ht, mkLineElemsFrom]
      simp only [List.flatMap_cons, h0, List.nil_append]
      exact ih (fun x hx => h x (List.mem_cons_of_mem t hx))

theorem flatMap_renderedLines_nil (ts : List TargetElem)
    (h : ∀ t ∈ ts, t.renderedLines = []) :
    ts.flatMap TargetElem.renderedLines = [] := by
  induction ts with
  | nil => rfl
  | cons t rest ih =>
      simp only [List.flatMap_cons, h t (List.mem_cons_self t rest), List.nil_append]
      exact ih (fun x hx => h x (List.mem_cons_of_mem t hx))

theorem totalLines_eq_zero (root : RootElem)
    (h : ∀ t ∈ elementsOf root, t.renderedLines = []) :
    totalLines root = 0 := by
  unfold totalLines
  rw [flatMap_renderedLines_nil (elementsOf root) h]
  rfl

/-- C7: with a null/unattached content root the useGSAP callback
returns before doing anything — no error, no state mutated; and when
segmentation discovers zero lines for every target, every later step
degrades to a no-op: no line or block is collected, no wrapper is
built, and no timeline or trigger is created. -/
theorem null_root_silent_no_op (cfg : Config) (prev : ActivationState) (root : RootElem)
    (h : ∀ t ∈ elementsOf root, t.renderedLines = []) :
    runActivation cfg prev none = prev
    ∧ (activateOn cfg root).lines = []
    ∧ (activateOn cfg root).blocks = []
    ∧ (activateOn cfg root).timelines = []
    ∧ (activateOn cfg root).triggers = []
    ∧ countWrappers (activateOn cfg root) = 0 := by
  have hlines : (activateOn cfg root).lines = [] := by
    have h1 : (activateOn cfg root).lines = (elementsOf root).flatMap targetLineElems := rfl
    rw [h1]
    exact flatMap_targetLineElems_nil (elementsOf root) h
  refine ⟨rfl, hlines, ?_, ?_, ?_, ?_⟩
  · have h1 : (activateOn cfg root).blocks
        = (activateOn cfg root).lines.map (fun _ => mkBlock cfg.blockColor) := rfl
    rw [h1, hlines]
    rfl
  · have h1 : (activateOn cfg root).timelines
        = scheduledTimelinesFrom cfg 0
            ((activateOn cfg root).blocks.zip (activateOn cfg root).lines) := rfl
    have h2 : (activateOn cfg root).blocks
        = (activateOn cfg root).lines.map (fun _ => mkBlock cfg.blockColor) := rfl
    rw [h1, h2, hlines]
    rfl
  · have h1 : (activateOn cfg root).triggers
        = scheduledTriggers cfg (activateOn cfg root).lines.length := rfl
    rw [h1, hlines]
    simp [scheduledTriggers]
  · rw [countWrappers_activateOn]
    exact totalLines_eq_zero root h

/-- Witness for `null_root_silent_no_op`: a root whose single target
segments into zero lines. -/
theorem null_root_silent_no_op_witness :
    runActivation defaultConfig (activateOn defaultConfig sampleRoot) none
        = activateOn defaultConfig sampleRoot
    ∧ (activateOn defaultConfig (.unmarked { children := [], renderedLines := [] })).lines = []
    ∧ (activateOn defaultConfig (.unmarked { children := [], renderedLines := [] })).blocks = []
    ∧ (activateOn defaultConfig (.unmarked { children := [], renderedLines := [] })).timelines = []
    ∧ (activateOn defaultConfig (.unmarked { children := [], renderedLines := [] })).triggers = []
    ∧ countWrappers (activateOn defaultConfig (.unmarked { children := [], renderedLines := [] })) = 0 :=
  null_root_silent_no_op defaultConfig (activateOn defaultConfig sampleRoot)
    (.unmarked { children := [], renderedLines := [] })
    (by
      intro t ht
      simp only [elementsOf, List.mem_singleton] at ht
      subst ht
      rfl)

/-- C8: the cleanup discards every timeline and trigger handle of the
cycle, and a dependency-change re-activation (cleanup first, then a
fresh run) produces exactly the state a fresh activation of the new
configuration would — independent of the prior cycle, with exactly
the new line count of timelines, triggers and wrappers, so nothing
leaks from the previous cycle. -/
theorem deactivate_discards_and_reconfigure_fresh
    (st : ActivationState) (cfg2 : Config) (r : RootElem) :
    (deactivate st).timelines = []
    ∧ (deactivate st).triggers = []
    ∧ reconfigure st cfg2 (some r) = activateOn cfg2 r
    ∧ (reconfigure st cfg2 (some r)).timelines.length = totalLines r
    ∧ (reconfigure st cfg2 (some r)).triggers.length
        = (if cfg2.animateOnScroll then totalLines r else 0)
    ∧ countWrappers (reconfigure st cfg2 (some r)) = totalLines r :=
  ⟨rfl, rfl, rfl, activateOn_timelines_length cfg2 r,
    activateOn_triggers_length cfg2 r, countWrappers_activateOn cfg2 r⟩

/-- C9: the teardown wrapper pass is defensive and per-wrapper: a
wrapper with a first child is replaced in place by (the processing of)
that first child and removed, a wrapper with no child is skipped and
left in place, and in both cases the pass continues over the siblings
before and after it — a skipped wrapper never aborts the rest of the
restoration. (In the tree embedding every node reached by the pass
has a parent, so the no-parent guard of the source is vacuously
satisfied.) -/
theorem teardown_defensive_unwrap (pre post kids : List DomNode)
    (sty : List (String × String)) (c : DomNode) :
    unwrapKids (pre ++ DomNode.elem "block-line-wrapper" sty (c :: kids) :: post)
      = unwrapKids pre ++ unwrapStep c ++ unwrapKids post
    ∧ unwrapKids (pre ++ DomNode.elem "block-line-wrapper" sty [] :: post)
      = unwrapKids pre ++ DomNode.elem "block-line-wrapper" sty [] :: unwrapKids post := by
  constructor
  · rw [unwrapKids_append]
    simp [unwrapKids, unwrapStep]
  · rw [unwrapKids_append]
    simp [unwrapKids, unwrapStep]

/-- C10: the component always renders its root div with the
`data-block-reveal-text-wrapper` marker attribute, so activation on a
root this component rendered always resolves the element list to the
root's direct children (the multi-child branch); the single-target
branch is unreachable for such roots. -/
theorem rendered_root_takes_multi_child_branch (children : List TargetElem) :
    (BlockRevealTextWrapper children).hasMarkerAttr = true
    ∧ elementsOf (BlockRevealTextWrapper children) = children :=
  ⟨rfl, rfl⟩
